import Mathlib

/-!
Verification of the httpie command-line client (src/httpie/src/main.rs).

Rust strings are modelled as `List Char`.  Pure functions of the source are
translated directly; external library facilities (the `url` crate, the `mime`
crate, the `jsonxf` pretty-printer, the `reqwest` client) are modelled from the
specification of their contracts, with a doc comment on each marking that.
-/

namespace Httpie

/-- Models Rust's `str::split` with a single-character pattern: the list of
segments of `s` separated by `c`.  It always returns at least one segment. -/
def splitOnChar (c : Char) : List Char → List (List Char)
| [] => [[]]
| x :: xs =>
  if x = c then [] :: splitOnChar c xs
  else
    match splitOnChar c xs with
    | [] => [[x]]
    | y :: ys => (x :: y) :: ys

/-- A parsed `key=value` pair (struct `KvItem` of the source). -/
structure KvItem where
  key : List Char
  value : List Char
deriving DecidableEq, Repr

/-- Models `KvItem::from_str`: split `s` on the character `=`; the iterator's first
item becomes the key and its second item the value; when an item is missing the
parse fails with the message `Failed to parse ` followed by the raw token.
The split never yields zero segments, so only the second item can be missing. -/
def kvFromStr (s : List Char) : Except (List Char) KvItem :=
  match splitOnChar '=' s with
  | [] => .error (("Failed to parse ").data ++ s)
  | [_] => .error (("Failed to parse ").data ++ s)
  | k :: v :: _ => .ok ⟨k, v⟩

/-- Models `parse_kvs`: the clap value-parser hook, which just defers to `from_str`. -/
def parse_kvs (s : List Char) : Except (List Char) KvItem := kvFromStr s

/-- Modelled from the spec: an absolute URL as accepted by the external
URL-parsing facility (the `url` crate) — a scheme part and everything after
the `:` separator. -/
structure UrlModel where
  scheme : List Char
  rest : List Char
deriving DecidableEq, Repr

def isSchemeChar (c : Char) : Bool :=
  c.isAlphanum || c == '+' || c == '-' || c == '.'

/-- Modelled from the spec: the external URL-parsing facility.  An input parses
as an absolute URL iff it starts with a scheme — an ASCII letter followed by
letters, digits, `+`, `-` or `.` — terminated by `:`; when `//` follows the
scheme, the authority before the next `/`, `?` or `#` must be non-empty. -/
def urlParse (s : List Char) : Option UrlModel :=
  match s.takeWhile isSchemeChar, s.dropWhile isSchemeChar with
  | c :: cs, ':' :: r =>
    if c.isAlpha then
      match r with
      | '/' :: '/' :: auth =>
        if (auth.takeWhile (fun x => x != '/' && x != '?' && x != '#')).isEmpty
        then none
        else some ⟨c :: cs, r⟩
      | _ => some ⟨c :: cs, r⟩
    else none
  | _, _ => none

inductive UrlError where
| invalidUrl
deriving DecidableEq, Repr

/-- Models `parse_url`: parses the argument with the URL facility solely as a check
(`let _url: Url = url.parse()?`) and returns the original string unchanged. -/
def parse_url (s : List Char) : Except UrlError (List Char) :=
  match urlParse s with
  | some _ => .ok s
  | none => .error .invalidUrl

def lbrace : Char := Char.ofNat 123

def rbrace : Char := Char.ofNat 125

/-- A parsed media type, modelled from the spec of the external `mime`
facility: lower-cased type and subtype plus the raw parameter section.  Two
media types are equal only when all three components agree, so
`application/json` carrying a `charset` parameter differs from the bare
`application/json`. -/
structure MimeModel where
  type : List Char
  subtype : List Char
  params : List Char
deriving DecidableEq, Repr

def isTokenChar (c : Char) : Bool :=
  c.isAlphanum || c == '+' || c == '-' || c == '.' || c == '_' || c == '*'

/-- Modelled from the spec: the external media-type parser.  The essence before
any `;` must be exactly `type/subtype` with both parts non-empty token words;
anything else fails to parse. -/
def mimeParse (s : List Char) : Option MimeModel :=
  let essence := s.takeWhile (· != ';')
  let par := (s.dropWhile (· != ';')).tail
  match splitOnChar '/' essence with
  | [t, sub] =>
    if !t.isEmpty && !sub.isEmpty && t.all isTokenChar && sub.all isTokenChar
    then some ⟨t.map Char.toLower, sub.map Char.toLower, par.map Char.toLower⟩
    else none
  | _ => none

def APPLICATION_JSON : MimeModel := ⟨("application").data, ("json").data, []⟩

/-- The JSON value grammar, for the model of the external pretty-printer. -/
inductive Json where
| null
| bool (b : Bool)
| num (digits : List Char)
| str (chars : List Char)
| arr (elems : List Json)
| obj (members : List (List Char × Json))
deriving Repr

def isJsonWs (c : Char) : Bool :=
  c == ' ' || c == '\t' || c == '\n' || c == '\r'

def skipWs (s : List Char) : List Char := s.dropWhile isJsonWs

/-- Scans a JSON string body up to its closing quote, keeping escapes raw. -/
def parseStringRest : Nat → List Char → Option (List Char × List Char)
| 0, _ => none
| _, [] => none
| fuel+1, c :: rest =>
  if c = '"' then some ([], rest)
  else if c = '\\' then
    match rest with
    | [] => none
    | e :: rest2 => (parseStringRest fuel rest2).map (fun p => (c :: e :: p.1, p.2))
  else (parseStringRest fuel rest).map (fun p => (c :: p.1, p.2))

def isNumChar (c : Char) : Bool :=
  c.isDigit || c == '-' || c == '+' || c == '.' || c == 'e' || c == 'E'

mutual

/-- Fueled recursive-descent parser for one JSON value. -/
def parseValue : Nat → List Char → Option (Json × List Char)
| 0, _ => none
| fuel+1, s =>
  match skipWs s with
  | [] => none
  | c :: rest =>
    if c = 'n' then
      match rest with
      | 'u' :: 'l' :: 'l' :: r => some (.null, r)
      | _ => none
    else if c = 't' then
      match rest with
      | 'r' :: 'u' :: 'e' :: r => some (.bool true, r)
      | _ => none
    else if c = 'f' then
      match rest with
      | 'a' :: 'l' :: 's' :: 'e' :: r => some (.bool false, r)
      | _ => none
    else if c = '"' then
      (parseStringRest (fuel+1) rest).map (fun p => (.str p.1, p.2))
    else if c.isDigit || c = '-' then
      some (.num ((c :: rest).takeWhile isNumChar), (c :: rest).dropWhile isNumChar)
    else if c = '[' then
      match skipWs rest with
      | ']' :: r => some (.arr [], r)
      | _ => (parseElems fuel rest).map (fun p => (.arr p.1, p.2))
    else if c = lbrace then
      let r0 := skipWs rest
      if r0.head? = some rbrace then some (.obj [], r0.tail)
      else (parseMembers fuel rest).map (fun p => (.obj p.1, p.2))
    else none

/-- Parses the comma-separated elements of a JSON array up to `]`. -/
def parseElems : Nat → List Char → Option (List Json × List Char)
| 0, _ => none
| fuel+1, s =>
  match parseValue fuel s with
  | none => none
  | some (v, rest) =>
    match skipWs rest with
    | ',' :: r => (parseElems fuel r).map (fun p => (v :: p.1, p.2))
    | ']' :: r => some ([v], r)
    | _ => none

/-- Parses the comma-separated members of a JSON object up to the closing
brace. -/
def parseMembers : Nat → List Char → Option (List (List Char × Json) × List Char)
| 0, _ => none
| fuel+1, s =>
  match skipWs s with
  | '"' :: r =>
    match parseStringRest (fuel+1) r with
    | none => none
    | some (k, r2) =>
      match skipWs r2 with
      | ':' :: r3 =>
        match parseValue fuel r3 with
        | none => none
        | some (v, r4) =>
          match skipWs r4 with
          | ',' :: r5 => (parseMembers fuel r5).map (fun p => ((k, v) :: p.1, p.2))
          | c5 :: r5 => if c5 = rbrace then some ([(k, v)], r5) else none
          | [] => none
      | _ => none
  | _ => none

end

/-- Parses a complete JSON document: one value with only whitespace after. -/
def jsonParse (s : List Char) : Option Json :=
  match parseValue (s.length + 1) s with
  | some (v, rest) => if skipWs rest = [] then some v else none
  | none => none

def indentChars (n : Nat) : List Char := List.replicate (2 * n) ' '

mutual

/-- Renders a JSON value with two-space indentation. -/
def renderJson : Nat → Nat → Json → List Char
| 0, _, _ => []
| fuel+1, d, j =>
  match j with
  | .null => ("null").data
  | .bool true => ("true").data
  | .bool false => ("false").data
  | .num ds => ds
  | .str cs => '"' :: cs ++ ['"']
  | .arr [] => ['[', ']']
  | .arr (x :: xs) =>
    '[' :: '\n' :: indentChars (d+1) ++ renderJson fuel (d+1) x ++
      renderElems fuel (d+1) xs ++ '\n' :: indentChars d ++ [']']
  | .obj [] => [lbrace, rbrace]
  | .obj (m :: ms) =>
    lbrace :: '\n' :: indentChars (d+1) ++ renderMember fuel (d+1) m ++
      renderMembers fuel (d+1) ms ++ '\n' :: indentChars d ++ [rbrace]

def renderElems : Nat → Nat → List Json → List Char
| 0, _, _ => []
| _+1, _, [] => []
| fuel+1, d, x :: xs =>
  ',' :: '\n' :: indentChars d ++ renderJson fuel d x ++ renderElems fuel d xs

def renderMember : Nat → Nat → List Char × Json → List Char
| 0, _, _ => []
| fuel+1, d, (k, v) => '"' :: k ++ '"' :: ':' :: ' ' :: renderJson fuel d v

def renderMembers : Nat → Nat → List (List Char × Json) → List Char
| 0, _, _ => []
| _+1, _, [] => []
| fuel+1, d, m :: ms =>
  ',' :: '\n' :: indentChars d ++ renderMember fuel d m ++ renderMembers fuel d ms

end

/-- Modelled from the spec: the external JSON pretty-printing facility
(`jsonxf::pretty_print`) — accepts raw JSON text and returns indented text, or
fails when the text is not valid JSON. -/
def jsonPretty (s : List Char) : Except (List Char) (List Char) :=
  match jsonParse s with
  | some v => .ok (renderJson (s.length + 1) 0 v)
  | none => .error (("invalid json").data)

/-- A received HTTP response as the rendering code sees it: protocol version,
status, the headers in received order, and the body text. -/
structure RespView where
  version : List Char
  status : List Char
  headers : List (List Char × List Char)
  body : List Char

def asciiLower (s : List Char) : List Char := s.map Char.toLower

/-- Models `HeaderMap::get`: the first header whose name matches, with header
names compared case-insensitively. -/
def headerGet (hs : List (List Char × List Char)) (nm : List Char) :
    Option (List Char) :=
  (hs.find? (fun p => asciiLower p.1 == asciiLower nm)).map Prod.snd

/-- The ways response rendering can abort: the unwrap of an unusable
`Content-Type` value, or the unwrap of the pretty-printer's failure on a body
declared as JSON (the spec's `BodyFormatError`). -/
inductive RenderErr where
| ctPanic
| bodyFormat (msg : List Char)
deriving DecidableEq, Repr

def isVisibleAscii (c : Char) : Bool := 32 ≤ c.toNat && c.toNat ≤ 126

/-- Models `get_content_type`: reads the `content-type` header and unwraps both the
`to_str` conversion and the mime parse; an absent header yields `none`, while a
present but unusable value aborts rendering (modelled as `.error .ctPanic`). -/
def get_content_type (hs : List (List Char × List Char)) :
    Except RenderErr (Option MimeModel) :=
  match headerGet hs (("content-type").data) with
  | none => .ok none
  | some v =>
    if v.all isVisibleAscii then
      match mimeParse v with
      | some m => .ok (some m)
      | none => .error .ctPanic
    else .error .ctPanic

/-- Models `print_status`: one line holding the debug-formatted protocol version and
the status, followed by a blank line (the `println!` carries an extra `\n`). -/
def print_status (r : RespView) : List (List Char) :=
  [r.version ++ ' ' :: r.status, []]

/-- The per-header output line: the name, a colon and space, then the header
value in its debug rendering (the `println!` uses a debug format for the
value, which surrounds it with double quotes). -/
def headerLine (p : List Char × List Char) : List Char :=
  p.1 ++ ':' :: ' ' :: '"' :: p.2 ++ ['"']

/-- Models `print_headers`: one line per header in order, then a blank line. -/
def print_headers (r : RespView) : List (List Char) :=
  r.headers.map headerLine ++ [[]]

/-- Models `print_body`: when the parsed media type is exactly `application/json` the
body is pretty-printed, unwrapping the pretty-printer's result (its failure is
the body-format abort); any other or absent media type prints the raw body. -/
def print_body (m : Option MimeModel) (body : List Char) :
    Except RenderErr (List (List Char)) :=
  match m with
  | some v =>
    if v = APPLICATION_JSON then
      match jsonPretty body with
      | .ok t => .ok [t]
      | .error e => .error (.bodyFormat e)
    else .ok [body]
  | none => .ok [body]

/-- Models `print_response`: status, headers, then the content-negotiated body.  The
result pairs the lines printed before any abort with the abort, if one
occurred (status and headers are printed before the content type is read). -/
def print_response (r : RespView) : List (List Char) × Option RenderErr :=
  let pre := print_status r ++ print_headers r
  match get_content_type r.headers with
  | .error e => (pre, some e)
  | .ok m =>
    match print_body m r.body with
    | .error e => (pre, some e)
    | .ok ls => (pre ++ ls, none)

/-- The map fold of the `post` handler: the `HashMap` built by inserting each
pair in order, modelled by its lookup function — a later insert for the same
key overwrites the earlier one.  The client serializes this mapping as the
request's JSON object body. -/
def postBodyMap (items : List KvItem) : List Char → Option (List Char) :=
  items.foldl (fun m item k => if k = item.key then some item.value else m k)
    (fun _ => none)

/-- The two default headers attached once to the client in `main` — the custom
marker header and the user agent (the header map stores names lower-cased). -/
def defaultHeaders : List (List Char × List Char) :=
  [((("x-powered-by").data), (("Rust").data)),
   ((("user-agent").data), (("Rust Httpie").data))]

inductive Method where
| GET
| POST
deriving DecidableEq, Repr

/-- An outbound request as the client sends it: method, url, the headers the
client attaches, and for POST the JSON-object body as a key to value map. -/
structure Request where
  method : Method
  url : List Char
  headers : List (List Char × List Char)
  jsonBody : Option (List Char → Option (List Char))

/-- The CLI subcommands after argument parsing. -/
inductive SubCommand where
| get (url : List Char)
| post (url : List Char) (body : List KvItem)

/-- The request each handler hands to the client: `get` sends a bare GET,
`post` folds its pairs into a map sent as the JSON body (which also adds the
request's own `content-type`).  Both run on the one client built in `main`, so
the client's default headers are attached to every request; the descriptor
adds to them but never replaces them. -/
def buildRequest : SubCommand → Request
| .get url => ⟨.GET, url, defaultHeaders, none⟩
| .post url items =>
  ⟨.POST, url,
    defaultHeaders ++ [((("content-type").data), (("application/json").data))],
    some (postBodyMap items)⟩

/-- Models `main` over its two external effects: the CLI parse outcome and
the network outcome of the one request.  On success it renders the response
and exits 0; any CLI, network, or rendering failure prints a diagnostic line
and exits 1. -/
def runMain (cli : Except (List Char) SubCommand)
    (net : Except (List Char) RespView) : List (List Char) × Nat :=
  match cli with
  | .error e => ([("error: ").data ++ e], 1)
  | .ok _ =>
    match net with
    | .error e => ([("Error: ").data ++ e], 1)
    | .ok resp =>
      match print_response resp with
      | (ls, some _) => (ls ++ [("panicked").data], 1)
      | (ls, none) => (ls, 0)

theorem splitOnChar_ne_nil (c : Char) (s : List Char) : splitOnChar c s ≠ [] := by
  induction s with
  | nil => simp [splitOnChar]
  | cons x xs ih =>
    by_cases hx : x = c
    · simp [splitOnChar, hx]
    · simp only [splitOnChar, if_neg hx]
      cases hs : splitOnChar c xs <;> simp

theorem splitOnChar_of_not_mem {c : Char} {s : List Char} (h : c ∉ s) :
    splitOnChar c s = [s] := by
  induction s with
  | nil => rfl
  | cons x xs ih =>
    have hx : ¬ x = c := fun he => h (he ▸ List.mem_cons_self x xs)
    have hxs : c ∉ xs := fun hm => h (List.mem_cons_of_mem x hm)
    simp [splitOnChar, if_neg hx, ih hxs]

theorem takeWhile_append_stop {c : Char} {s t : List Char} (h : c ∉ s) :
    (s ++ c :: t).takeWhile (· != c) = s := by
  induction s with
  | nil => simp [List.takeWhile]
  | cons x xs ih =>
    have hx : x ≠ c := fun he => h (he ▸ List.mem_cons_self x xs)
    have hxs : c ∉ xs := fun hm => h (List.mem_cons_of_mem x hm)
    have hb : (x != c) = true := bne_iff_ne.mpr hx
    simp [List.takeWhile, hb, ih hxs]

theorem dropWhile_append_stop {c : Char} {s t : List Char} (h : c ∉ s) :
    (s ++ c :: t).dropWhile (· != c) = c :: t := by
  induction s with
  | nil => simp [List.dropWhile]
  | cons x xs ih =>
    have hx : x ≠ c := fun he => h (he ▸ List.mem_cons_self x xs)
    have hxs : c ∉ xs := fun hm => h (List.mem_cons_of_mem x hm)
    have hb : (x != c) = true := bne_iff_ne.mpr hx
    simp [List.dropWhile, hb, ih hxs]

theorem takeWhile_of_not_mem {c : Char} {s : List Char} (h : c ∉ s) :
    s.takeWhile (· != c) = s := by
  induction s with
  | nil => rfl
  | cons x xs ih =>
    have hx : x ≠ c := fun he => h (he ▸ List.mem_cons_self x xs)
    have hxs : c ∉ xs := fun hm => h (List.mem_cons_of_mem x hm)
    have hb : (x != c) = true := bne_iff_ne.mpr hx
    simp [List.takeWhile, hb, ih hxs]

theorem splitOnChar_of_mem {c : Char} {s : List Char} (h : c ∈ s) :
    splitOnChar c s =
      s.takeWhile (· != c) :: splitOnChar c ((s.dropWhile (· != c)).tail) := by
  induction s with
  | nil => cases h
  | cons x xs ih =>
    by_cases hx : x = c
    · subst hx
      simp [splitOnChar, List.takeWhile, List.dropWhile]
    · have hc : c ∈ xs := by
        rcases List.mem_cons.mp h with h1 | h1
        · exact absurd h1.symm hx
        · exact h1
      have hb : (x != c) = true := bne_iff_ne.mpr hx
      simp only [splitOnChar, if_neg hx, ih hc]
      simp [List.takeWhile, List.dropWhile, hb]

theorem splitOnChar_head (c : Char) (s : List Char) :
    ∃ ys, splitOnChar c s = s.takeWhile (· != c) :: ys := by
  by_cases h : c ∈ s
  · exact ⟨_, splitOnChar_of_mem h⟩
  · exact ⟨[], by rw [splitOnChar_of_not_mem h, takeWhile_of_not_mem h]⟩

theorem kvFromStr_of_not_mem {s : List Char} (h : '=' ∉ s) :
    kvFromStr s = .error (("Failed to parse ").data ++ s) := by
  simp [kvFromStr, splitOnChar_of_not_mem h]

theorem kvFromStr_of_mem {s : List Char} (h : '=' ∈ s) :
    kvFromStr s =
      .ok ⟨s.takeWhile (· != '='),
           ((s.dropWhile (· != '=')).tail).takeWhile (· != '=')⟩ := by
  obtain ⟨ys, hy⟩ := splitOnChar_head '=' ((s.dropWhile (· != '=')).tail)
  simp [kvFromStr, splitOnChar_of_mem h, hy]

/-- C2: `kvFromStr s` fails exactly when `s` contains no `=`.  When `s` contains
at least one `=` it succeeds and the key is the segment before the first `=`;
when it contains none it fails and the error message ends with the raw token. -/
theorem kv_parse_iff_eq (s : List Char) :
    ('=' ∈ s →
      kvFromStr s =
        .ok ⟨s.takeWhile (· != '='),
             ((s.dropWhile (· != '=')).tail).takeWhile (· != '=')⟩) ∧
    ('=' ∉ s →
      kvFromStr s = .error (("Failed to parse ").data ++ s)) :=
  ⟨fun h => kvFromStr_of_mem h, fun h => kvFromStr_of_not_mem h⟩

/-- C2 witness: concrete evaluations at the tokens `a=b` and `ab`. -/
theorem kv_parse_iff_eq_witness :
    kvFromStr (("a=b").data) = .ok ⟨("a").data, ("b").data⟩ ∧
    kvFromStr (("ab").data) = .error (("Failed to parse ab").data) :=
  ⟨((kv_parse_iff_eq (("a=b").data)).1 (by decide)).trans (by rfl),
   ((kv_parse_iff_eq (("ab").data)).2 (by decide)).trans (by rfl)⟩

/-- C4 counterexample: the token `=1` parses successfully and constructs a pair
whose key is the empty string, refuting the non-empty-key invariant. -/
theorem kv_nonempty_counterexample :
    kvFromStr (("=1").data) = .ok ⟨[], ("1").data⟩ := by rfl

/-- C4 amended: a token without `=` never yields a constructed pair, and every
constructed pair's key and value are the first two `=`-separated segments of the
token — either of which may be the empty string. -/
theorem kv_pair_construction (s : List Char) :
    ('=' ∉ s → ∀ p : KvItem, kvFromStr s ≠ .ok p) ∧
    (∀ p : KvItem, kvFromStr s = .ok p →
      p.key = s.takeWhile (· != '=') ∧
      p.value = ((s.dropWhile (· != '=')).tail).takeWhile (· != '=')) := by
  constructor
  · intro h p hp
    rw [kvFromStr_of_not_mem h] at hp
    exact Except.noConfusion hp
  · intro p hp
    by_cases h : '=' ∈ s
    · rw [kvFromStr_of_mem h] at hp
      cases hp
      exact ⟨rfl, rfl⟩
    · rw [kvFromStr_of_not_mem h] at hp
      exact Except.noConfusion hp

/-- C4 amended witness: concrete instances at the tokens `ab` and `=1`. -/
theorem kv_pair_construction_witness :
    kvFromStr (("ab").data) ≠ .ok ⟨("a").data, ("b").data⟩ ∧
    (KvItem.mk [] (("1").data)).key = (("=1").data).takeWhile (· != '=') :=
  ⟨(kv_pair_construction (("ab").data)).1 (by decide) _,
   ((kv_pair_construction (("=1").data)).2 ⟨[], ("1").data⟩ (by rfl)).1⟩

/-- C6: with more than one `=` in the token, the key is everything before the
first `=` and the value is the second `=`-delimited segment only; the remainder
is discarded, never reassembled. -/
theorem kv_second_segment (s1 s2 s3 : List Char)
    (h1 : '=' ∉ s1) (h2 : '=' ∉ s2) :
    kvFromStr (s1 ++ '=' :: s2 ++ '=' :: s3) = .ok ⟨s1, s2⟩ := by
  have hm : '=' ∈ s1 ++ '=' :: s2 ++ '=' :: s3 := by
    simp [List.mem_append]
  rw [kvFromStr_of_mem hm]
  rw [show s1 ++ '=' :: s2 ++ '=' :: s3 = s1 ++ '=' :: (s2 ++ '=' :: s3) by simp]
  rw [takeWhile_append_stop h1, dropWhile_append_stop h1]
  simp [takeWhile_append_stop h2]

/-- C6 witness: `a=b=c` parses to key `a` and value `b`, not value `b=c`. -/
theorem kv_second_segment_witness :
    kvFromStr (("a=b=c").data) = .ok ⟨("a").data, ("b").data⟩ := by
  have h := kv_second_segment (("a").data) (("b").data) (("c").data)
    (by decide) (by decide)
  exact (by decide :
    ("a=b=c").data = ("a").data ++ '=' :: ("b").data ++ '=' :: ("c").data) ▸ h

/-- C7: URL validation is a pure gate: whenever the input parses as an absolute
URL, validation succeeds and returns the original string unchanged; otherwise
it fails with InvalidUrl.  Concretely `https://example.com` passes and
`example.com` fails. -/
theorem parse_url_gate (s : List Char) :
    (∀ u, urlParse s = some u → parse_url s = .ok s) ∧
    (urlParse s = none → parse_url s = .error .invalidUrl) ∧
    parse_url (("https://example.com").data) = .ok (("https://example.com").data) ∧
    parse_url (("example.com").data) = .error .invalidUrl := by
  refine ⟨fun u hu => ?_, fun hn => ?_, by rfl, by rfl⟩
  · simp [parse_url, hu]
  · simp [parse_url, hn]

/-- C7 witness: the general clauses applied at `http://x` and `x`. -/
theorem parse_url_gate_witness :
    parse_url (("http://x").data) = .ok (("http://x").data) ∧
    parse_url (("x").data) = .error .invalidUrl :=
  ⟨(parse_url_gate (("http://x").data)).1 ⟨("http").data, ("//x").data⟩ (by rfl),
   (parse_url_gate (("x").data)).2.1 (by rfl)⟩

/-- C10: validation does not restrict the scheme to HTTP(S): every string the
URL facility accepts passes validation whatever its scheme, and in particular
`ftp://example.com` and `mailto:user@example.com` are both accepted. -/
theorem parse_url_any_scheme (s : List Char) (u : UrlModel)
    (h : urlParse s = some u) :
    parse_url s = .ok s ∧
    parse_url (("ftp://example.com").data) = .ok (("ftp://example.com").data) ∧
    parse_url (("mailto:user@example.com").data) =
      .ok (("mailto:user@example.com").data) :=
  ⟨by simp [parse_url, h], by rfl, by rfl⟩

/-- C10 witness: the theorem applied at `ftp://example.com`. -/
theorem parse_url_any_scheme_witness :
    parse_url (("ftp://example.com").data) = .ok (("ftp://example.com").data) :=
  (parse_url_any_scheme (("ftp://example.com").data)
    ⟨("ftp").data, ("//example.com").data⟩ (by rfl)).1

/-- C1 counterexample: a response whose `Content-Type` value `oops` does not
parse as a media type is not rendered with its raw body as the claim states;
the unwrap of the content-type parse aborts rendering and the body line never
appears in the output. -/
theorem content_type_dispatch_counterexample :
    (print_response ⟨("HTTP/1.1").data, ("200 OK").data,
        [(("content-type").data, ("oops").data)], ("hello").data⟩).2 =
      some .ctPanic ∧
    ("hello").data ∉
      (print_response ⟨("HTTP/1.1").data, ("200 OK").data,
        [(("content-type").data, ("oops").data)], ("hello").data⟩).1 := by
  refine ⟨by rfl, by decide⟩

/-- C1 amended: body rendering dispatches on the parsed Content-Type — exactly
`application/json` pretty-prints the body, aborting with the body-format error
when the body is not valid JSON; any other parsed media type or an absent
header displays the raw body unchanged; a present but unparseable header value
aborts rendering (its parse is unwrapped) instead of displaying the raw
body. -/
theorem content_type_dispatch (r : RespView) :
    (get_content_type r.headers = .ok none →
      print_response r = (print_status r ++ print_headers r ++ [r.body], none)) ∧
    (∀ m, get_content_type r.headers = .ok (some m) → m ≠ APPLICATION_JSON →
      print_response r = (print_status r ++ print_headers r ++ [r.body], none)) ∧
    (get_content_type r.headers = .ok (some APPLICATION_JSON) →
      (∀ t, jsonPretty r.body = .ok t →
        print_response r = (print_status r ++ print_headers r ++ [t], none)) ∧
      (∀ e, jsonPretty r.body = .error e →
        print_response r =
          (print_status r ++ print_headers r, some (.bodyFormat e)))) ∧
    (∀ e, get_content_type r.headers = .error e →
      print_response r = (print_status r ++ print_headers r, some e)) := by
  refine ⟨fun h => ?_, fun m hm hne => ?_,
    fun hj => ⟨fun t ht => ?_, fun e he => ?_⟩, fun e he => ?_⟩
  · simp [print_response, h, print_body, List.append_assoc]
  · simp [print_response, hm, print_body, hne, List.append_assoc]
  · simp [print_response, hj, print_body, ht, List.append_assoc]
  · simp [print_response, hj, print_body, he, List.append_assoc]
  · simp [print_response, he, List.append_assoc]

/-- C1 amended witness: the four dispatch branches at concrete responses — no
content type, `text/plain`, `application/json` with a valid body, and
`application/json` with an invalid body. -/
theorem content_type_dispatch_witness :
    print_response ⟨("HTTP/1.1").data, ("200 OK").data, [], ("hi").data⟩ =
      (print_status ⟨("HTTP/1.1").data, ("200 OK").data, [], ("hi").data⟩ ++
        print_headers ⟨("HTTP/1.1").data, ("200 OK").data, [], ("hi").data⟩ ++
        [("hi").data], none) ∧
    print_response ⟨("HTTP/1.1").data, ("200 OK").data,
        [(("content-type").data, ("text/plain").data)], ("hi").data⟩ =
      (print_status ⟨("HTTP/1.1").data, ("200 OK").data,
          [(("content-type").data, ("text/plain").data)], ("hi").data⟩ ++
        print_headers ⟨("HTTP/1.1").data, ("200 OK").data,
          [(("content-type").data, ("text/plain").data)], ("hi").data⟩ ++
        [("hi").data], none) ∧
    print_response ⟨("HTTP/1.1").data, ("200 OK").data,
        [(("content-type").data, ("application/json").data)],
        ("\x7b\"x\":1\x7d").data⟩ =
      (print_status ⟨("HTTP/1.1").data, ("200 OK").data,
          [(("content-type").data, ("application/json").data)],
          ("\x7b\"x\":1\x7d").data⟩ ++
        print_headers ⟨("HTTP/1.1").data, ("200 OK").data,
          [(("content-type").data, ("application/json").data)],
          ("\x7b\"x\":1\x7d").data⟩ ++
        [("\x7b\n  \"x\": 1\n\x7d").data], none) ∧
    print_response ⟨("HTTP/1.1").data, ("200 OK").data,
        [(("content-type").data, ("application/json").data)], ("nope").data⟩ =
      (print_status ⟨("HTTP/1.1").data, ("200 OK").data,
          [(("content-type").data, ("application/json").data)], ("nope").data⟩ ++
        print_headers ⟨("HTTP/1.1").data, ("200 OK").data,
          [(("content-type").data, ("application/json").data)], ("nope").data⟩,
        some (.bodyFormat (("invalid json").data))) := by
  refine ⟨(content_type_dispatch _).1 (by rfl),
    (content_type_dispatch _).2.1 ⟨("text").data, ("plain").data, []⟩
      (by rfl) (by decide),
    ((content_type_dispatch _).2.2.1 (by rfl)).1 _ (by rfl),
    ((content_type_dispatch _).2.2.1 (by rfl)).2 _ (by rfl)⟩

/-- C5: rendering any response emits the status line first, then a blank line,
then one line per header in order, then a blank line, then whatever body lines
follow; and when body rendering succeeds its lines are exactly what follows
the second blank. -/
theorem render_ordering (r : RespView) :
    (∃ bodyLines, (print_response r).1 =
      (r.version ++ ' ' :: r.status) :: ([] : List Char) ::
        (r.headers.map headerLine ++ ([] : List Char) :: bodyLines)) ∧
    (∀ m ls, get_content_type r.headers = .ok m → print_body m r.body = .ok ls →
      (print_response r).1 =
        (r.version ++ ' ' :: r.status) :: ([] : List Char) ::
          (r.headers.map headerLine ++ ([] : List Char) :: ls)) := by
  constructor
  · cases hct : get_content_type r.headers with
    | error e =>
      exact ⟨[], by simp [print_response, hct, print_status, print_headers]⟩
    | ok m =>
      cases hpb : print_body m r.body with
      | error e =>
        exact ⟨[], by simp [print_response, hct, hpb, print_status, print_headers]⟩
      | ok ls =>
        exact ⟨ls, by simp [print_response, hct, hpb, print_status, print_headers]⟩
  · intro m ls hct hpb
    simp [print_response, hct, hpb, print_status, print_headers]

/-- C5 witness: the exact ordered line list of a concrete rendered response. -/
theorem render_ordering_witness :
    (print_response ⟨("HTTP/1.1").data, ("200 OK").data,
        [(("server").data, ("srv").data)], ("ok").data⟩).1 =
      (("HTTP/1.1").data ++ ' ' :: ("200 OK").data) :: ([] : List Char) ::
        ([(("server").data, ("srv").data)].map headerLine ++
          ([] : List Char) :: [("ok").data]) :=
  (render_ordering _).2 none [("ok").data] (by rfl) (by rfl)

theorem find?_append_cases {α : Type} (l1 l2 : List α) (p : α → Bool) :
    (l1 ++ l2).find? p =
      match l1.find? p with
      | some x => some x
      | none => l2.find? p := by
  induction l1 with
  | nil => simp
  | cons x xs ih =>
    by_cases hx : p x
    · simp [List.find?, hx]
    · simp only [List.cons_append, List.find?]
      rw [Bool.eq_false_iff.mpr hx]
      exact ih

theorem foldl_insert_lookup (items : List KvItem)
    (m : List Char → Option (List Char)) (k : List Char) :
    items.foldl (fun m item k => if k = item.key then some item.value else m k)
        m k =
      match items.reverse.find? (fun it => it.key == k) with
      | some it => some it.value
      | none => m k := by
  induction items generalizing m with
  | nil => simp
  | cons it rest ih =>
    simp only [List.foldl_cons, List.reverse_cons]
    rw [ih, find?_append_cases]
    cases hf : rest.reverse.find? (fun x => x.key == k) with
    | some x => rfl
    | none =>
      by_cases hk : k = it.key
      · simp [List.find?, hk]
      · have : (it.key == k) = false :=
          beq_eq_false_iff_ne.mpr (fun he => hk he.symm)
        simp [List.find?, this, if_neg hk]

/-- C3: the POST body object is the last-write-wins fold of the ordered pairs:
each key maps to the value of the last pair carrying it; in particular the
pairs a=1, b=2 give the object mapping a to 1 and b to 2, and the duplicate
pairs a=1, a=2 give the object mapping a to 2. -/
theorem post_body_mapping (items : List KvItem) (k : List Char) :
    postBodyMap items k =
      (items.reverse.find? (fun it => it.key == k)).map KvItem.value ∧
    postBodyMap [⟨("a").data, ("1").data⟩, ⟨("b").data, ("2").data⟩]
      (("a").data) = some (("1").data) ∧
    postBodyMap [⟨("a").data, ("1").data⟩, ⟨("b").data, ("2").data⟩]
      (("b").data) = some (("2").data) ∧
    postBodyMap [⟨("a").data, ("1").data⟩, ⟨("b").data, ("2").data⟩]
      (("c").data) = none ∧
    postBodyMap [⟨("a").data, ("1").data⟩, ⟨("a").data, ("2").data⟩]
      (("a").data) = some (("2").data) := by
  refine ⟨?_, by rfl, by rfl, by rfl, by rfl⟩
  rw [postBodyMap, foldl_insert_lookup]
  cases items.reverse.find? (fun it => it.key == k) <;> rfl

/-- C9: every outbound request, GET or POST alike, carries the fixed default
header set attached to the client at startup: the default headers are a prefix
of the request's headers, and looking either of them up yields the startup
value — descriptor construction never overrides them. -/
theorem default_headers_on_every_request (cmd : SubCommand) :
    (buildRequest cmd).headers.take 2 = defaultHeaders ∧
    headerGet (buildRequest cmd).headers (("x-powered-by").data) =
      some (("Rust").data) ∧
    headerGet (buildRequest cmd).headers (("user-agent").data) =
      some (("Rust Httpie").data) := by
  cases cmd with
  | get url => exact ⟨rfl, rfl, rfl⟩
  | post url items => exact ⟨rfl, rfl, rfl⟩

/-- C8: the process exits zero exactly when a response was rendered with no
abort; whether rendering aborts never depends on the HTTP status (non-2xx
responses are rendered, not treated as failures); and every non-zero exit
prints at least one diagnostic line. -/
theorem exit_zero_iff_rendered (cli : Except (List Char) SubCommand)
    (net : Except (List Char) RespView) :
    ((runMain cli net).2 = 0 ↔
      cli.isOk = true ∧ ∃ r, net = .ok r ∧ (print_response r).2 = none) ∧
    (∀ r : RespView, ∀ s : List Char,
      (print_response { r with status := s }).2 = (print_response r).2) ∧
    ((runMain cli net).2 ≠ 0 → (runMain cli net).1 ≠ []) := by
  refine ⟨?_, fun r s => ?_, ?_⟩
  · cases cli with
    | error e => simp [runMain, Except.isOk, Except.toBool]
    | ok cmd =>
      cases net with
      | error e => simp [runMain, Except.isOk, Except.toBool]
      | ok resp =>
        cases hpr : print_response resp with
        | mk ls o =>
          cases o with
          | none => simp [runMain, hpr, Except.isOk, Except.toBool]
          | some e => simp [runMain, hpr, Except.isOk, Except.toBool]
  · show (print_response ⟨r.version, s, r.headers, r.body⟩).2 = _
    cases hct : get_content_type r.headers with
    | error e => simp [print_response, hct]
    | ok m =>
      cases hpb : print_body m r.body with
      | error e => simp [print_response, hct, hpb]
      | ok ls => simp [print_response, hct, hpb]
  · cases cli with
    | error e => simp [runMain]
    | ok cmd =>
      cases net with
      | error e => simp [runMain]
      | ok resp =>
        cases hpr : print_response resp with
        | mk ls o =>
          cases o with
          | none => simp [runMain, hpr]
          | some e => simp [runMain, hpr]

/-- C8 witness: a rendered 404 response exits zero, and a failed CLI parse
exits non-zero with a diagnostic line. -/
theorem exit_zero_iff_rendered_witness :
    (runMain (.ok (SubCommand.get (("http://x").data)))
      (.ok ⟨("HTTP/1.1").data, ("404 Not Found").data, [], ("nope").data⟩)).2
      = 0 ∧
    (runMain (.error (("bad flag").data))
      (.error (("refused").data))).1 ≠ [] := by
  constructor
  · exact (exit_zero_iff_rendered _ _).1.mpr
      ⟨by rfl, ⟨("HTTP/1.1").data, ("404 Not Found").data, [], ("nope").data⟩,
        rfl, by rfl⟩
  · exact (exit_zero_iff_rendered _ _).2.2 (by decide)

end Httpie
